import Mathlib

/-!
Shallow embedding of `src/briefcase/integrations/xcode.py` and proofs of the
specification's claims about it.

The module under embedding shells out to `xcodebuild` / `xcrun simctl`,
parses the textual or JSON output, and reports tool/simulator status.  The
subprocess boundary is modelled as an argument of each embedded function.
For the version command the argument distinguishes the three outcomes of
`sub.check_output`: a captured stdout, the `subprocess.CalledProcessError`
of a non-zero exit, and the `OSError` (such as `FileNotFoundError`) raised
when the command cannot be executed at all — the source catches only the
second.  For the two JSON-consuming functions the argument carries the
already decoded payload of a successful run, `none` standing for the
`subprocess.CalledProcessError` of a non-zero exit, matching the wire
contract of spec §6; malformed JSON is out of scope per spec §7.
-/

/- ================= Python string and tuple primitives ================= -/

/-- One pass of Python `s.split(sep)` for a single-character separator,
working over the character list: splits at every occurrence of `sep`,
keeping empty pieces, so splitting the empty list yields `[[]]` just as
Python's `''.split(sep) == ['']`. -/
def splitChar (sep : Char) : List Char → List (List Char)
  | [] => [[]]
  | c :: cs =>
    let rest := splitChar sep cs
    if c = sep then [] :: rest
    else
      match rest with
      | r :: rs => (c :: r) :: rs
      | [] => [[c]]

/-- Python `s.split(sep, 1)` for a single-character separator: split at the
first occurrence only, the remainder staying one piece. -/
def splitChar1 (sep : Char) : List Char → List (List Char)
  | [] => [[]]
  | c :: cs =>
    if c = sep then [[], cs]
    else
      match splitChar1 sep cs with
      | r :: rs => (c :: r) :: rs
      | [] => [[c]]

/-- Python `s.split(sep)` on strings (single-character separator). -/
def pySplit (sep : Char) (s : String) : List String :=
  (splitChar sep s.toList).map (fun cs => String.mk cs)

/-- Python `s.split(sep, 1)` on strings (single-character separator). -/
def pySplit1 (sep : Char) (s : String) : List String :=
  (splitChar1 sep s.toList).map (fun cs => String.mk cs)

/-- Python `s.startswith(pre)` on character lists: prefix test. -/
def startswithL : List Char → List Char → Bool
  | _, [] => true
  | [], _ :: _ => false
  | c :: cs, p :: ps => c == p && startswithL cs ps

/-- Python `s.startswith(pre)` on strings. -/
def startswith (s pre : String) : Bool :=
  startswithL s.toList pre.toList

/-- Python `s.strip()` as used by `int()`: drop surrounding whitespace. -/
def pyStrip (cs : List Char) : List Char :=
  ((cs.dropWhile Char.isWhitespace).reverse.dropWhile Char.isWhitespace).reverse

/-- Nonempty run of decimal digits. -/
def isDigits (cs : List Char) : Bool :=
  !cs.isEmpty && cs.all (fun c => c.isDigit)

/-- Numeric value of a run of decimal digits. -/
def digitsVal (cs : List Char) : Nat :=
  cs.foldl (fun n c => 10 * n + (c.toNat - 48)) 0

/-- Python `int(s)` on a string: strip surrounding whitespace, allow one
leading sign character, then require a nonempty run of decimal digits;
`none` models the `ValueError` raised on any other input.  (Python's
acceptance of underscore digit grouping and non-ASCII decimal digits is not
modelled; no input in this development contains them.) -/
def pyInt (s : String) : Option Int :=
  match pyStrip s.toList with
  | '+' :: cs => if isDigits cs then some (Int.ofNat (digitsVal cs)) else none
  | '-' :: cs => if isDigits cs then some (-Int.ofNat (digitsVal cs)) else none
  | cs => if isDigits cs then some (Int.ofNat (digitsVal cs)) else none

/-- Python tuple comparison `a < b` on integer tuples: lexicographic,
an exhausted left tuple that is a proper prefix of the right comparing
less. -/
def tupleLt : List Int → List Int → Bool
  | [], [] => false
  | [], _ :: _ => true
  | _ :: _, [] => false
  | a :: as, b :: bs => if a < b then true else if b < a then false else tupleLt as bs

/-- Python `'.'.join(str(v) for v in vs)`. -/
def dotJoin (vs : List Int) : String :=
  String.intercalate "." (vs.map toString)

/- ================= Python dict primitives ================= -/

/-- Python dict lookup `d[k]` on an insertion-ordered association list;
`none` models `KeyError`. -/
def dictGet {α : Type} (k : String) : List (String × α) → Option α
  | [] => none
  | (k', v) :: rest => if k' = k then some v else dictGet k rest

/-- Python dict insertion `d[k] = v`: replace the value in place when the key
is present, append otherwise. -/
def dictInsert {α : Type} (k : String) (v : α) : List (String × α) → List (String × α)
  | [] => [(k, v)]
  | (k', v') :: rest => if k' = k then (k, v) :: rest else (k', v') :: dictInsert k v rest

/-- A Python dict comprehension: insert the generated key-value pairs left to
right into an initially empty dict, so a later duplicate key overwrites the
earlier value while keeping its position. -/
def dictOfList {α : Type} (ps : List (String × α)) : List (String × α) :=
  ps.foldl (fun d p => dictInsert p.1 p.2 d) []

/- ================= ensure_xcode_is_installed ================= -/

/-- The `DeviceState` enum of xcode.py (values SHUTDOWN = 0, BOOTED = 1,
SHUTTING_DOWN = 10, UNKNOWN = 99). -/
inductive DeviceState where
  | SHUTDOWN
  | BOOTED
  | SHUTTING_DOWN
  | UNKNOWN
  deriving DecidableEq

/-- Observable outcome of `ensure_xcode_is_installed`. -/
inductive XcodeResult where
  /-- Returned normally without printing anything. -/
  | ok
  /-- Printed the unable-to-determine-version warning, then returned
  normally (success). -/
  | warned
  /-- Raised `BriefcaseCommandError` with the Xcode-is-not-installed message
  (reached from `subprocess.CalledProcessError`). -/
  | notInstalled (msg : String)
  /-- Raised `BriefcaseCommandError`: the minimum version requirement is not
  met; carries the formatted message. -/
  | tooLow (msg : String)
  /-- Raised an uncaught `ValueError` from `int()` on a non-numeric version
  piece: only `IndexError` is caught by the inner handler. -/
  | valueError
  /-- Raised an uncaught `OSError` (such as `FileNotFoundError`) from the
  process launch: a command that cannot be executed does not raise
  `subprocess.CalledProcessError`, and nothing in the function catches
  `OSError`. -/
  | osError
  deriving DecidableEq

/-- The token `output.split('\n')[0].split(' ')[1]` of
`ensure_xcode_is_installed`; `none` models the `IndexError` when the first
line has no second space-separated token.  (The `[0]` cannot fail: `split`
always returns at least one piece.) -/
def versionToken (output : String) : Option String :=
  ((pySplit ' ' ((pySplit '\n' output).headD "")).get? 1)

/-- The conversion `tuple(int(v) for v in pieces)`: `none` when some `int()`
raises `ValueError`. -/
def intList : List String → Option (List Int)
  | [] => some []
  | s :: rest =>
    match pyInt s, intList rest with
    | some i, some is => some (i :: is)
    | _, _ => none

/-- The version tuple `ensure_xcode_is_installed` extracts from the
command output, before the two appended zero components; `none` when the
token is missing (`IndexError`) or a piece is non-numeric (`ValueError`). -/
def parsedVersion (output : String) : Option (List Int) :=
  (versionToken output).bind (fun tok => intList (pySplit '.' tok))

/-- Outcome of the `sub.check_output(['xcodebuild', '-version'], ...)` call:
the captured stdout of a successful run, the `subprocess.CalledProcessError`
of a non-zero exit, or the `OSError` (such as `FileNotFoundError`) raised
when the command cannot be executed at all. -/
inductive CheckOutputResult where
  | ok (output : String)
  | calledProcessError
  | osError
  deriving DecidableEq

/-- Shallow embedding of `ensure_xcode_is_installed` (xcode.py lines 15-87).
`min_version` is the optional minimum version tuple; `check_output` is the
subprocess boundary.  The source's `except subprocess.CalledProcessError`
clause converts only the non-zero-exit failure into the not-installed
error; a launch failure (`OSError`) is caught by nothing and propagates. -/
def ensure_xcode_is_installed (min_version : Option (List Int))
    (check_output : CheckOutputResult) : XcodeResult :=
  match check_output with
  | CheckOutputResult.calledProcessError =>
      XcodeResult.notInstalled
        "\nXcode is not installed.\n\nYou can install Xcode from the macOS App Store.\n"
  | CheckOutputResult.osError => XcodeResult.osError
  | CheckOutputResult.ok output =>
    match min_version with
    | none => XcodeResult.ok
    | some m =>
      if startswith output "Xcode " then
        match versionToken output with
        | none => XcodeResult.warned
        | some tok =>
          match intList (pySplit '.' tok) with
          | none => XcodeResult.valueError
          | some vs =>
            if tupleLt (vs ++ [0, 0]) m then
              XcodeResult.tooLow
                ("Xcode " ++ dotJoin m ++ " is required; " ++ dotJoin (vs ++ [0, 0]) ++
                  " is installed. Please update Xcode.")
            else XcodeResult.ok
      else XcodeResult.warned

/- ================= get_simulators ================= -/

/-- A runtime object of the `simctl list -j` payload. -/
structure SimRuntime where
  name : String
  identifier : String
  isAvailable : Bool
  deriving DecidableEq

/-- A device object of the `simctl list -j` payload. -/
structure SimDevice where
  udid : String
  name : String
  isAvailable : Bool
  state : String
  deriving DecidableEq

/-- The decoded `simctl list -j` payload (spec §6 wire contract): `runtimes`
an array of runtime objects and `devices` a mapping, modelled as an
insertion-ordered association list as Python dicts are, from runtime
identifier to device array. -/
structure SimctlData where
  runtimes : List SimRuntime
  devices : List (String × List SimDevice)
  deriving DecidableEq

/-- Observable outcome of `get_simulators`. -/
inductive SimResult where
  /-- Returned the two-level dictionary: OS version to (udid to name). -/
  | ok (simulators : List (String × List (String × String)))
  /-- Raised `BriefcaseCommandError` (from `subprocess.CalledProcessError`). -/
  | invocationFailed (msg : String)
  /-- Raised an uncaught `KeyError`: a retained runtime identifier is missing
  from the `devices` mapping. -/
  | keyError
  deriving DecidableEq

/-- The runtimes `get_simulators` keeps: name starting with the OS name
followed by a space, and the availability flag true. -/
def retainedRuntimes (os_name : String) (data : SimctlData) : List SimRuntime :=
  data.runtimes.filter
    (fun runtime => startswith runtime.name (os_name ++ " ") && runtime.isAvailable)

/-- The `os_versions` dict comprehension of `get_simulators`: OS version
(the text after the first space of the runtime name, `split(' ', 1)[1]`)
mapped to the runtime identifier.  The index-1 access cannot fail: every
retained name starts with the OS name followed by a space, hence contains a
space. -/
def os_versionsOf (os_name : String) (data : SimctlData) : List (String × String) :=
  dictOfList ((retainedRuntimes os_name data).map
    (fun runtime => ((pySplit1 ' ' runtime.name).getD 1 "", runtime.identifier)))

/-- The inner dict comprehension of `get_simulators`: udid mapped to name,
for the devices of one runtime whose availability flag is true. -/
def availDevicePairs (devs : List SimDevice) : List (String × String) :=
  (devs.filter (fun device => device.isAvailable)).map
    (fun device => (device.udid, device.name))

/-- The `simulators` dict comprehension of `get_simulators`, one entry per
`os_versions` item in order: looks the identifier up in the `devices`
mapping (`none` models the uncaught `KeyError`) and builds the inner udid
to name dict. -/
def simEntries (devices : List (String × List SimDevice)) :
    List (String × String) → Option (List (String × List (String × String)))
  | [] => some []
  | (version, identifier) :: rest =>
    match dictGet identifier devices, simEntries devices rest with
    | some devs, some tail => some ((version, dictOfList (availDevicePairs devs)) :: tail)
    | _, _ => none

/-- Shallow embedding of `get_simulators` (xcode.py lines 90-133).
`check_output` is the subprocess-and-json boundary: `none` for
`CalledProcessError`, `some data` for the decoded payload. -/
def get_simulators (os_name : String) (check_output : Option SimctlData) : SimResult :=
  match check_output with
  | none => SimResult.invocationFailed "Unable to run xcrun simctl."
  | some simctl_data =>
    match simEntries simctl_data.devices (os_versionsOf os_name simctl_data) with
    | none => SimResult.keyError
    | some entries => SimResult.ok (dictOfList entries)

/- ================= get_device_state ================= -/

/-- Observable outcome of `get_device_state`. -/
inductive DeviceStateResult where
  /-- Returned a `DeviceState`. -/
  | ok (st : DeviceState)
  /-- Raised `BriefcaseCommandError`: no device with the requested udid. -/
  | notFound (msg : String)
  /-- Raised `BriefcaseCommandError` (from `subprocess.CalledProcessError`). -/
  | invocationFailed (msg : String)
  deriving DecidableEq

/-- The fixed lookup table of `get_device_state`, with `UNKNOWN` as the
`.get` default for any other state label. -/
def stateTable (state : String) : DeviceState :=
  if state = "Booted" then DeviceState.BOOTED
  else if state = "Shutting Down" then DeviceState.SHUTTING_DOWN
  else if state = "Shutdown" then DeviceState.SHUTDOWN
  else DeviceState.UNKNOWN

/-- The inner loop of `get_device_state`: scan one runtime's device array in
order, returning the state string of the first device whose udid matches. -/
def findStateIn (udid : String) : List SimDevice → Option String
  | [] => none
  | device :: rest =>
    if device.udid = udid then some device.state else findStateIn udid rest

/-- The nested loop of `get_device_state`: scan the `devices` mapping in
dict order, each runtime's array in order, for the first matching udid. -/
def findDeviceState (udid : String) : List (String × List SimDevice) → Option String
  | [] => none
  | (_, devs) :: rest =>
    match findStateIn udid devs with
    | some st => some st
    | none => findDeviceState udid rest

/-- Shallow embedding of `get_device_state` (xcode.py lines 136-172).
`check_output` is the subprocess-and-json boundary: `none` for
`CalledProcessError`, `some data` for the decoded payload of the
udid-scoped listing command. -/
def get_device_state (udid : String) (check_output : Option SimctlData) : DeviceStateResult :=
  match check_output with
  | none => DeviceStateResult.invocationFailed "Unable to run xcrun simctl."
  | some simctl_data =>
    match findDeviceState udid simctl_data.devices with
    | some st => DeviceStateResult.ok (stateTable st)
    | none =>
        DeviceStateResult.notFound
          ("Unable to determine status of device " ++ udid ++ ".")

/- ================= Spec-side definitions ================= -/

/-- The text after the first space of a string, the spec's description of how
the OS version is read off a runtime name (§4.2). -/
def afterFirstSpace (s : String) : String :=
  String.mk ((s.toList.dropWhile (fun c => c ≠ ' ')).drop 1)

/-- Written from the spec's words (§4.2, §8): keep the runtimes whose name
starts with the OS name followed by a space and whose availability flag is
true; the OS version is everything after the first space of the name; each
retained runtime maps to exactly the available devices found under its
identifier, as udid-to-name pairs. -/
def listSimulatorsSpec (os_name : String) (data : SimctlData) :
    List (String × List (String × String)) :=
  (data.runtimes.filter
      (fun r => startswith r.name (os_name ++ " ") && r.isAvailable)).map
    (fun r => (afterFirstSpace r.name,
      (((dictGet r.identifier data.devices).getD []).filter
          (fun d => d.isAvailable)).map (fun d => (d.udid, d.name))))

/-- Well-formedness of a payload for one query: every retained runtime's
identifier is a key of the `devices` mapping (otherwise the Python code dies
with `KeyError`, out of scope per spec §7). -/
def wfPayload (os_name : String) (data : SimctlData) : Bool :=
  (retainedRuntimes os_name data).all
    (fun runtime => (dictGet runtime.identifier data.devices).isSome)

/-- The OS-version keys generated by the retained runtimes, in order. -/
def versionKeys (os_name : String) (data : SimctlData) : List String :=
  (retainedRuntimes os_name data).map
    (fun runtime => (pySplit1 ' ' runtime.name).getD 1 "")

/- ================= Sample payloads for concrete evaluations ================= -/

/-- An available booted device, as in the spec's worked example (§8). -/
def sampleDevice : SimDevice :=
  { udid := "ABC", name := "iPhone 11", isAvailable := true, state := "Booted" }

/-- An available iOS 14.0 runtime. -/
def sampleRuntime : SimRuntime :=
  { name := "iOS 14.0"
    identifier := "com.apple.CoreSimulator.SimRuntime.iOS-14-0"
    isAvailable := true }

/-- The spec's worked example payload (§8): one available iOS 14.0 runtime
holding one available device. -/
def samplePayload : SimctlData :=
  { runtimes := [sampleRuntime]
    devices := [(sampleRuntime.identifier, [sampleDevice])] }

/-- A device present in the payload but flagged unavailable. -/
def sampleDeadDevice : SimDevice :=
  { udid := "DEF", name := "iPhone 8", isAvailable := false, state := "Shutdown" }

/-- A payload whose single retained runtime has no available device. -/
def sampleEmptyPayload : SimctlData :=
  { runtimes := [sampleRuntime]
    devices := [(sampleRuntime.identifier, [sampleDeadDevice])] }

/- ================= Helper lemmas ================= -/

/-- Python tuple comparison agrees with the standard lexicographic strict
order on lists, under which a proper prefix compares less. -/
theorem tupleLt_iff_lex (a b : List Int) :
    tupleLt a b = true ↔ List.Lex (· < ·) a b := by
  induction a generalizing b with
  | nil =>
    cases b with
    | nil => simp [tupleLt]
    | cons b bs => exact iff_of_true rfl List.Lex.nil
  | cons a as ih =>
    cases b with
    | nil => simp [tupleLt]
    | cons b bs =>
      rcases lt_trichotomy a b with hab | hab | hab
      · rw [show tupleLt (a :: as) (b :: bs) = true from by
          simp only [tupleLt, if_pos hab]]
        exact iff_of_true rfl (List.Lex.rel hab)
      · subst hab
        rw [show tupleLt (a :: as) (a :: bs) = tupleLt as bs from by
          simp only [tupleLt, if_neg (lt_irrefl a)]]
        rw [ih bs]
        constructor
        · exact List.Lex.cons
        · intro h
          cases h with
          | cons h' => exact h'
          | rel h' => exact absurd h' (lt_irrefl a)
      · rw [show tupleLt (a :: as) (b :: bs) = false from by
          simp only [tupleLt, if_neg (asymm hab), if_pos hab]]
        constructor
        · intro h; cases h
        · intro h
          cases h with
          | cons h' => exact absurd hab (lt_irrefl a)
          | rel h' => exact absurd hab (asymm h')

/-- Inserting a key absent from a dict appends the binding at the end. -/
theorem dictInsert_of_not_mem {α : Type} (k : String) (v : α)
    (d : List (String × α)) (h : ∀ p ∈ d, p.1 ≠ k) :
    dictInsert k v d = d ++ [(k, v)] := by
  induction d with
  | nil => rfl
  | cons p rest ih =>
    obtain ⟨k', v'⟩ := p
    simp only [dictInsert]
    rw [if_neg (h (k', v') (List.mem_cons_self _ _)),
      ih (fun q hq => h q (List.mem_cons_of_mem _ hq))]
    rfl

/-- Folding dict insertions of pairwise distinct keys onto an accumulator
whose keys are also fresh just appends the pairs in order. -/
theorem dictOfList_foldl {α : Type} (ps : List (String × α)) :
    ∀ acc : List (String × α), ((acc ++ ps).map Prod.fst).Nodup →
      ps.foldl (fun d p => dictInsert p.1 p.2 d) acc = acc ++ ps := by
  induction ps with
  | nil => intro acc _; simp
  | cons p ps ih =>
    intro acc h
    rw [List.map_append] at h
    have hdisj := (List.nodup_append.mp h).2.2
    have hfresh : ∀ q ∈ acc, q.1 ≠ p.1 := by
      intro q hq heq
      exact hdisj (List.mem_map_of_mem Prod.fst hq)
        (by rw [heq]; exact List.mem_cons_self _ _)
    simp only [List.foldl_cons]
    rw [dictInsert_of_not_mem p.1 p.2 acc hfresh]
    have hacc : acc ++ [(p.1, p.2)] ++ ps = acc ++ p :: ps := by simp
    have h' : (((acc ++ [(p.1, p.2)]) ++ ps).map Prod.fst).Nodup := by
      rw [hacc, List.map_append]; exact h
    rw [ih (acc ++ [(p.1, p.2)]) h', hacc]

/-- A dict comprehension over pairs with pairwise distinct keys is just the
list of pairs. -/
theorem dictOfList_eq_self {α : Type} (ps : List (String × α))
    (h : (ps.map Prod.fst).Nodup) : dictOfList ps = ps := by
  have := dictOfList_foldl ps [] (by simpa using h)
  simpa [dictOfList] using this

/-- Looking a present key up in a dict with pairwise distinct keys returns
its value. -/
theorem dictGet_of_mem {α : Type} {k : String} {v : α}
    {ps : List (String × α)} (hnd : (ps.map Prod.fst).Nodup)
    (hmem : (k, v) ∈ ps) : dictGet k ps = some v := by
  induction ps with
  | nil => cases hmem
  | cons p rest ih =>
    obtain ⟨k', v'⟩ := p
    rw [List.map_cons, List.nodup_cons] at hnd
    rcases List.mem_cons.mp hmem with heq | hmem'
    · cases heq
      simp [dictGet]
    · have hk : k' ≠ k := by
        intro h'
        subst h'
        exact hnd.1 (List.mem_map.mpr ⟨(k', v), hmem', rfl⟩)
      simp only [dictGet, if_neg hk]
      exact ih hnd.2 hmem'

/-- Every character of a tested prefix occurs in a string passing the
`startswith` test. -/
theorem startswithL_mem {cs ps : List Char} (h : startswithL cs ps = true) :
    ∀ c ∈ ps, c ∈ cs := by
  induction ps generalizing cs with
  | nil => intro c hc; cases hc
  | cons p ps ih =>
    cases cs with
    | nil => cases h
    | cons c cs =>
      rw [startswithL, Bool.and_eq_true, beq_iff_eq] at h
      intro x hx
      rcases List.mem_cons.mp hx with hx | hx
      · subst hx; rw [h.1]; exact List.mem_cons_self _ _
      · exact List.mem_cons_of_mem _ (ih h.2 x hx)

/-- A string that starts with a prefix ending in a space contains a space. -/
theorem space_mem_of_startswith {s pre : String}
    (h : startswith s (pre ++ " ") = true) : ' ' ∈ s.toList := by
  apply startswithL_mem h
  show ' ' ∈ (pre ++ " ").data
  rw [String.data_append]
  exact List.mem_append.mpr (Or.inr (List.mem_cons_self _ _))

/-- Splitting at the first occurrence of a separator that is present yields
exactly the part before it and the part after it. -/
theorem splitChar1_of_mem (sep : Char) (cs : List Char) (h : sep ∈ cs) :
    splitChar1 sep cs =
      [cs.takeWhile (fun c => c ≠ sep), (cs.dropWhile (fun c => c ≠ sep)).drop 1] := by
  induction cs with
  | nil => cases h
  | cons c cs ih =>
    by_cases hc : c = sep
    · subst hc
      simp [splitChar1, List.takeWhile, List.dropWhile]
    · have hmem : sep ∈ cs := by
        rcases List.mem_cons.mp h with h' | h'
        · exact absurd h'.symm hc
        · exact h'
      rw [splitChar1]
      rw [if_neg hc, ih hmem]
      simp [List.takeWhile, List.dropWhile, hc]

/-- On a runtime name containing a space, the `split(' ', 1)[1]` expression
of the source computes the text after the first space. -/
theorem pySplit1_space (s : String) (h : ' ' ∈ s.toList) :
    (pySplit1 ' ' s).getD 1 "" = afterFirstSpace s := by
  unfold pySplit1 afterFirstSpace
  rw [splitChar1_of_mem ' ' s.toList h]
  rfl

/-- When the output passes the tool-name prefix test and its version component
parses, the check reduces to the source's tuple comparison against the
minimum version. -/
theorem ensure_parse_cases (m : List Int) (output : String) (raw : List Int)
    (hx : startswith output "Xcode " = true)
    (hp : parsedVersion output = some raw) :
    ensure_xcode_is_installed (some m) (CheckOutputResult.ok output) =
      if tupleLt (raw ++ [0, 0]) m then
        XcodeResult.tooLow
          ("Xcode " ++ dotJoin m ++ " is required; " ++ dotJoin (raw ++ [0, 0]) ++
            " is installed. Please update Xcode.")
      else XcodeResult.ok := by
  obtain ⟨tok, htok, hint⟩ := Option.bind_eq_some.mp hp
  simp only [ensure_xcode_is_installed, hx, htok, hint, if_true]

/- ================= Claim theorems: ToolVersionChecker ================= -/

/-- C1 (code bug).  The claim says a version component that fails integer
parsing degrades to the warning and success, like an output that lacks the
tool-name prefix.  The code's inner handler catches only `IndexError`, while
`int('1-beta')` raises `ValueError`, which escapes `ensure_xcode_is_installed`
uncaught: on output starting with the prefix but with a non-numeric piece the
function raises `ValueError` instead of warning.  The second conjunct shows
the half of the claim the code does satisfy: an output without the prefix
warns and succeeds. -/
theorem ensure_xcode_nonnumeric_raises :
    ensure_xcode_is_installed (some [11, 2])
        (CheckOutputResult.ok "Xcode 11.2.1-beta\nBuild version 11B500") =
      XcodeResult.valueError
    ∧ ensure_xcode_is_installed (some [11, 2])
        (CheckOutputResult.ok "xcodebuild: error: SDK unavailable") = XcodeResult.warned :=
  ⟨by decide, by decide⟩

/-- C2, counterexample.  The claim covers a command that cannot be executed,
but there `sub.check_output` raises `OSError` (`FileNotFoundError`), not
`subprocess.CalledProcessError`, and the source's lone except clause lets it
propagate: the operation does not fail with the Xcode-is-not-installed
`BriefcaseCommandError`. -/
theorem ensure_xcode_os_error_counterexample :
    ensure_xcode_is_installed (some [11, 2]) CheckOutputResult.osError =
      XcodeResult.osError
    ∧ XcodeResult.osError ≠ XcodeResult.notInstalled
        "\nXcode is not installed.\n\nYou can install Xcode from the macOS App Store.\n" :=
  ⟨rfl, by decide⟩

/-- C2, amended.  A non-zero exit of the version command
(`subprocess.CalledProcessError`) always raises the Xcode-is-not-installed
`BriefcaseCommandError`, whatever `min_version` is, and never a
version-parsing error; a command that cannot be executed instead raises an
uncaught `OSError`, again whatever `min_version` is and never a
version-parsing error. -/
theorem ensure_xcode_not_installed (min_version : Option (List Int)) :
    ensure_xcode_is_installed min_version CheckOutputResult.calledProcessError =
      XcodeResult.notInstalled
        "\nXcode is not installed.\n\nYou can install Xcode from the macOS App Store.\n"
    ∧ ensure_xcode_is_installed min_version CheckOutputResult.osError =
      XcodeResult.osError :=
  ⟨rfl, rfl⟩

/-- C8.  With no minimum version, a successful invocation is accepted
without inspecting the output at all. -/
theorem ensure_xcode_no_min_version (output : String) :
    ensure_xcode_is_installed none (CheckOutputResult.ok output) = XcodeResult.ok :=
  rfl

/-- C3.  For an output passing the 'Xcode ' prefix test whose version
component parses to the tuple `raw`, the check succeeds exactly when the
zero-padded tuple `raw ++ [0, 0]` is not lexicographically below the
minimum version (so `"Xcode 9"` parses to `(9, 0, 0)`), and raises the
version-too-low `BriefcaseCommandError` when it is below. -/
theorem ensure_xcode_version_gate (m : List Int) (output : String) (raw : List Int)
    (hx : startswith output "Xcode " = true)
    (hp : parsedVersion output = some raw) :
    (ensure_xcode_is_installed (some m) (CheckOutputResult.ok output) = XcodeResult.ok ↔
      ¬ List.Lex (· < ·) (raw ++ [0, 0]) m)
    ∧ (List.Lex (· < ·) (raw ++ [0, 0]) m →
      ∃ msg, ensure_xcode_is_installed (some m) (CheckOutputResult.ok output) = XcodeResult.tooLow msg) := by
  have hred := ensure_parse_cases m output raw hx hp
  by_cases h : tupleLt (raw ++ [0, 0]) m = true
  · rw [if_pos h] at hred
    have hlex := (tupleLt_iff_lex _ _).mp h
    refine ⟨?_, fun _ => ⟨_, hred⟩⟩
    rw [hred]
    simp [hlex]
  · rw [if_neg h] at hred
    have hlex : ¬ List.Lex (· < ·) (raw ++ [0, 0]) m :=
      fun hl => h ((tupleLt_iff_lex _ _).mpr hl)
    exact ⟨by rw [hred]; simp [hlex], fun hl => absurd hl hlex⟩

/-- Witness for C3 at the spec's zero-padding example: `"Xcode 9"` parses to
`(9)` and, padded to `(9, 0, 0)`, is below the minimum `(9, 0, 1)`. -/
theorem ensure_xcode_version_gate_witness :
    startswith "Xcode 9" "Xcode " = true
    ∧ parsedVersion "Xcode 9" = some [9]
    ∧ ((ensure_xcode_is_installed (some [9, 0, 1]) (CheckOutputResult.ok "Xcode 9") = XcodeResult.ok ↔
        ¬ List.Lex (· < ·) (([9] : List Int) ++ [0, 0]) [9, 0, 1])
      ∧ (List.Lex (· < ·) (([9] : List Int) ++ [0, 0]) [9, 0, 1] →
        ∃ msg, ensure_xcode_is_installed (some [9, 0, 1]) (CheckOutputResult.ok "Xcode 9") =
          XcodeResult.tooLow msg)) :=
  ⟨by decide, by decide,
    ensure_xcode_version_gate [9, 0, 1] "Xcode 9" [9] (by decide) (by decide)⟩

/-- C10.  The version-too-low message embeds the dot-join of the parsed
tuple including the two unconditionally appended zero components. -/
theorem ensure_xcode_too_low_message (m : List Int) (output : String) (raw : List Int)
    (hx : startswith output "Xcode " = true)
    (hp : parsedVersion output = some raw)
    (hlow : tupleLt (raw ++ [0, 0]) m = true) :
    ensure_xcode_is_installed (some m) (CheckOutputResult.ok output) =
      XcodeResult.tooLow
        ("Xcode " ++ dotJoin m ++ " is required; " ++ dotJoin (raw ++ [0, 0]) ++
          " is installed. Please update Xcode.") := by
  rw [ensure_parse_cases m output raw hx hp, if_pos hlow]

/-- Witness for C10 at the claim's example: output `"Xcode 11.2.1"` and
minimum `(11, 3)` report `11.2.1.0.0` as the installed version. -/
theorem ensure_xcode_too_low_message_witness :
    startswith "Xcode 11.2.1" "Xcode " = true
    ∧ parsedVersion "Xcode 11.2.1" = some [11, 2, 1]
    ∧ tupleLt ([11, 2, 1] ++ [0, 0]) [11, 3] = true
    ∧ ensure_xcode_is_installed (some [11, 3]) (CheckOutputResult.ok "Xcode 11.2.1") =
        XcodeResult.tooLow
          "Xcode 11.3 is required; 11.2.1.0.0 is installed. Please update Xcode." :=
  ⟨by decide, by decide, by decide,
    ensure_xcode_too_low_message [11, 3] "Xcode 11.2.1" [11, 2, 1]
      (by decide) (by decide) (by decide)⟩

/- ================= SimulatorInventory lemmas ================= -/

/-- When every identifier is a key of the `devices` mapping, the simulators
comprehension succeeds and produces one entry per version in order. -/
theorem simEntries_of_wf (devices : List (String × List SimDevice))
    (ps : List (String × String))
    (h : ∀ vi ∈ ps, (dictGet vi.2 devices).isSome = true) :
    simEntries devices ps =
      some (ps.map (fun vi =>
        (vi.1, dictOfList (availDevicePairs ((dictGet vi.2 devices).getD []))))) := by
  induction ps with
  | nil => rfl
  | cons vi rest ih =>
    obtain ⟨version, identifier⟩ := vi
    obtain ⟨devs, hdevs⟩ :=
      Option.isSome_iff_exists.mp (h _ (List.mem_cons_self _ _))
    rw [List.map_cons]
    simp only [simEntries, hdevs, ih (fun q hq => h q (List.mem_cons_of_mem _ hq))]
    simp [hdevs]

/-- The keys of the `os_versions` generator are the version keys. -/
theorem os_versions_keys (os_name : String) (data : SimctlData) :
    ((retainedRuntimes os_name data).map
      (fun runtime => ((pySplit1 ' ' runtime.name).getD 1 "", runtime.identifier))).map
        Prod.fst = versionKeys os_name data := by
  rw [List.map_map]
  rfl

/-- On a well-formed payload whose retained version keys are pairwise
distinct, `get_simulators` returns one entry per retained runtime, in
order: the version key paired with the dict of its available devices. -/
theorem get_simulators_entries (os_name : String) (data : SimctlData)
    (hwf : wfPayload os_name data = true)
    (hver : (versionKeys os_name data).Nodup) :
    get_simulators os_name (some data) =
      SimResult.ok ((retainedRuntimes os_name data).map (fun runtime =>
        ((pySplit1 ' ' runtime.name).getD 1 "",
          dictOfList (availDevicePairs
            ((dictGet runtime.identifier data.devices).getD []))))) := by
  have hos : os_versionsOf os_name data = (retainedRuntimes os_name data).map
      (fun runtime => ((pySplit1 ' ' runtime.name).getD 1 "", runtime.identifier)) := by
    unfold os_versionsOf
    exact dictOfList_eq_self _ (by rw [os_versions_keys]; exact hver)
  have hall : ∀ vi ∈ (retainedRuntimes os_name data).map
      (fun runtime => ((pySplit1 ' ' runtime.name).getD 1 "", runtime.identifier)),
      (dictGet vi.2 data.devices).isSome = true := by
    intro vi hvi
    obtain ⟨r, hr, rfl⟩ := List.mem_map.mp hvi
    exact List.all_eq_true.mp hwf r hr
  have hsim := simEntries_of_wf data.devices _ hall
  have hkeys2 : (((retainedRuntimes os_name data).map
      ((fun vi : String × String =>
          (vi.1, dictOfList (availDevicePairs ((dictGet vi.2 data.devices).getD []))))
        ∘ (fun runtime =>
          ((pySplit1 ' ' runtime.name).getD 1 "", runtime.identifier)))).map Prod.fst).Nodup := by
    rw [List.map_map]
    exact hver
  simp only [get_simulators, hos, hsim, List.map_map]
  rw [dictOfList_eq_self _ hkeys2]
  rfl

/- ================= Claim theorems: SimulatorInventory ================= -/

/-- C5.  On a well-formed payload (every retained identifier present in the
devices mapping, retained version keys pairwise distinct, available-device
udids pairwise distinct per runtime), `get_simulators` returns exactly the
snapshot described by the spec: the runtimes whose name starts with the OS
name followed by a space and whose availability flag is true, keyed by the
text after the first space of the name, each holding exactly its available
devices as a udid-to-name mapping. -/
theorem get_simulators_refines_spec (os_name : String) (data : SimctlData)
    (hwf : wfPayload os_name data = true)
    (hver : (versionKeys os_name data).Nodup)
    (hudid : ∀ runtime ∈ retainedRuntimes os_name data,
      ((availDevicePairs ((dictGet runtime.identifier data.devices).getD [])).map
        Prod.fst).Nodup) :
    get_simulators os_name (some data) =
      SimResult.ok (listSimulatorsSpec os_name data) := by
  rw [get_simulators_entries os_name data hwf hver]
  unfold listSimulatorsSpec
  congr 1
  apply List.map_congr_left
  intro r hr
  have hsw : startswith r.name (os_name ++ " ") = true := by
    have hf := (List.mem_filter.mp hr).2
    rw [Bool.and_eq_true] at hf
    exact hf.1
  rw [pySplit1_space r.name (space_mem_of_startswith hsw)]
  rw [dictOfList_eq_self _ (hudid r hr)]
  rfl

/-- Witness for C5 at the spec's worked example: one available iOS 14.0
runtime with one available device yields the two-level snapshot of the
claim. -/
theorem get_simulators_refines_spec_witness :
    wfPayload "iOS" samplePayload = true
    ∧ (versionKeys "iOS" samplePayload).Nodup
    ∧ (∀ runtime ∈ retainedRuntimes "iOS" samplePayload,
      ((availDevicePairs ((dictGet runtime.identifier samplePayload.devices).getD [])).map
        Prod.fst).Nodup)
    ∧ get_simulators "iOS" (some samplePayload) =
        SimResult.ok [("14.0", [("ABC", "iPhone 11")])] :=
  ⟨by decide, by decide, by decide, by
    have h := get_simulators_refines_spec "iOS" samplePayload
      (by decide) (by decide) (by decide)
    rw [h]
    decide⟩

/-- C7.  An OS name matched by no runtime name yields the empty snapshot,
with no failure, whatever the rest of the payload holds. -/
theorem get_simulators_no_matching_runtime (os_name : String) (data : SimctlData)
    (h : ∀ runtime ∈ data.runtimes,
      startswith runtime.name (os_name ++ " ") = false) :
    get_simulators os_name (some data) = SimResult.ok [] := by
  have hret : retainedRuntimes os_name data = [] := by
    unfold retainedRuntimes
    rw [List.filter_eq_nil_iff]
    intro r hr
    simp [h r hr]
  simp [get_simulators, os_versionsOf, hret, dictOfList, simEntries]

/-- Witness for C7: the sample payload holds only an iOS runtime, so a tvOS
query returns the empty mapping. -/
theorem get_simulators_no_matching_runtime_witness :
    (∀ runtime ∈ samplePayload.runtimes,
      startswith runtime.name ("tvOS" ++ " ") = false)
    ∧ get_simulators "tvOS" (some samplePayload) = SimResult.ok [] :=
  ⟨by decide, get_simulators_no_matching_runtime "tvOS" samplePayload (by decide)⟩

/-- C9.  A retained runtime none of whose devices is available still
contributes its OS version as a key of the result, mapped to the empty
inner dictionary, rather than being omitted. -/
theorem get_simulators_keeps_empty_runtime (os_name : String) (data : SimctlData)
    (r : SimRuntime) (devs : List SimDevice)
    (hwf : wfPayload os_name data = true)
    (hver : (versionKeys os_name data).Nodup)
    (hr : r ∈ retainedRuntimes os_name data)
    (hdevs : dictGet r.identifier data.devices = some devs)
    (hnone : ∀ device ∈ devs, device.isAvailable = false) :
    ∃ sims, get_simulators os_name (some data) = SimResult.ok sims
      ∧ dictGet ((pySplit1 ' ' r.name).getD 1 "") sims = some [] := by
  refine ⟨_, get_simulators_entries os_name data hwf hver, ?_⟩
  have hkeys : (((retainedRuntimes os_name data).map (fun runtime =>
      ((pySplit1 ' ' runtime.name).getD 1 "",
        dictOfList (availDevicePairs
          ((dictGet runtime.identifier data.devices).getD []))))).map Prod.fst).Nodup := by
    rw [List.map_map]
    exact hver
  have hmem : ((pySplit1 ' ' r.name).getD 1 "",
      dictOfList (availDevicePairs ((dictGet r.identifier data.devices).getD [])))
      ∈ (retainedRuntimes os_name data).map (fun runtime =>
        ((pySplit1 ' ' runtime.name).getD 1 "",
          dictOfList (availDevicePairs
            ((dictGet runtime.identifier data.devices).getD [])))) :=
    List.mem_map.mpr ⟨r, hr, rfl⟩
  rw [dictGet_of_mem hkeys hmem]
  have hempty : availDevicePairs devs = [] := by
    unfold availDevicePairs
    rw [List.filter_eq_nil_iff.mpr]
    · rfl
    · intro d hd
      simp [hnone d hd]
  rw [hdevs]
  simp [hempty, dictOfList]

/-- Witness for C9: a payload whose single retained runtime holds only an
unavailable device still reports version key 14.0, with an empty inner
dictionary. -/
theorem get_simulators_keeps_empty_runtime_witness :
    ∃ sims, get_simulators "iOS" (some sampleEmptyPayload) = SimResult.ok sims
      ∧ dictGet "14.0" sims = some [] :=
  get_simulators_keeps_empty_runtime "iOS" sampleEmptyPayload
    sampleRuntime [sampleDeadDevice]
    (by decide) (by decide) (by decide) (by decide) (by decide)

/- ================= DeviceStateProbe lemmas ================= -/

/-- The inner device loop is a first-match search over the array. -/
theorem findStateIn_eq_find (udid : String) (devs : List SimDevice) :
    findStateIn udid devs =
      (devs.find? (fun device => device.udid == udid)).map SimDevice.state := by
  induction devs with
  | nil => rfl
  | cons d rest ih =>
    by_cases h : d.udid = udid
    · rw [findStateIn, if_pos h, List.find?_cons_of_pos _ (by simp [h])]
      rfl
    · rw [findStateIn, if_neg h, List.find?_cons_of_neg _ (by simp [h]), ih]

/-- The nested runtime loop is a first-match search over the concatenation
of the device arrays, in dict order. -/
theorem findDeviceState_eq_find (udid : String)
    (entries : List (String × List SimDevice)) :
    findDeviceState udid entries =
      ((entries.flatMap Prod.snd).find? (fun device => device.udid == udid)).map
        SimDevice.state := by
  induction entries with
  | nil => rfl
  | cons e rest ih =>
    obtain ⟨k, devs⟩ := e
    rw [findDeviceState, findStateIn_eq_find]
    rw [show ((k, devs) :: rest).flatMap Prod.snd = devs ++ rest.flatMap Prod.snd by
      simp]
    rw [List.find?_append]
    cases hfind : devs.find? (fun device => device.udid == udid) with
    | some d => simp
    | none => simp [ih]

/- ================= Claim theorems: DeviceStateProbe ================= -/

/-- C4.  The probe fails with the device-not-found `BriefcaseCommandError`
exactly when no device entry of any runtime carries the requested udid;
when a match exists it returns the first match's state sent through the
fixed table, whose content is Booted to BOOTED, Shutting Down to
SHUTTING_DOWN, Shutdown to SHUTDOWN and UNKNOWN for every other label. -/
theorem get_device_state_characterization (udid : String) (data : SimctlData) :
    (get_device_state udid (some data) =
        DeviceStateResult.notFound
          ("Unable to determine status of device " ++ udid ++ ".")
      ↔ ∀ entry ∈ data.devices, ∀ device ∈ entry.2, device.udid ≠ udid)
    ∧ (∀ device,
        (data.devices.flatMap Prod.snd).find? (fun d => d.udid == udid) = some device →
        get_device_state udid (some data) =
          DeviceStateResult.ok (stateTable device.state))
    ∧ stateTable "Booted" = DeviceState.BOOTED
    ∧ stateTable "Shutting Down" = DeviceState.SHUTTING_DOWN
    ∧ stateTable "Shutdown" = DeviceState.SHUTDOWN
    ∧ (∀ s, s ≠ "Booted" → s ≠ "Shutting Down" → s ≠ "Shutdown" →
        stateTable s = DeviceState.UNKNOWN) := by
  have hfd := findDeviceState_eq_find udid data.devices
  refine ⟨?_, ?_, rfl, rfl, rfl, ?_⟩
  · constructor
    · intro hres entry hentry device hdevice heq
      cases hfind : (data.devices.flatMap Prod.snd).find?
          (fun d => d.udid == udid) with
      | some d =>
        rw [hfind] at hfd
        simp only [get_device_state, hfd, Option.map_some] at hres
        cases hres
      | none =>
        rw [List.find?_eq_none] at hfind
        exact hfind device (List.mem_flatMap.mpr ⟨entry, hentry, hdevice⟩)
          (by simp [heq])
    · intro hnone
      have hfind : (data.devices.flatMap Prod.snd).find?
          (fun d => d.udid == udid) = none := by
        rw [List.find?_eq_none]
        intro d hd
        obtain ⟨entry, hentry, hdevice⟩ := List.mem_flatMap.mp hd
        simp [hnone entry hentry d hdevice]
      rw [hfind] at hfd
      simp only [get_device_state, hfd]
      rfl
  · intro device hfind
    rw [hfind] at hfd
    simp only [get_device_state, hfd]
    rfl
  · intro s h1 h2 h3
    simp [stateTable, h1, h2, h3]

/-- Witness for C4: the booted sample device is found and reported BOOTED. -/
theorem get_device_state_characterization_witness :
    (samplePayload.devices.flatMap Prod.snd).find?
        (fun d => d.udid == "ABC") = some sampleDevice
    ∧ get_device_state "ABC" (some samplePayload) =
        DeviceStateResult.ok (stateTable sampleDevice.state) :=
  ⟨by decide,
    (get_device_state_characterization "ABC" samplePayload).2.1 sampleDevice (by decide)⟩

/-- C6.  A failed invocation of the listing command raises the
unable-to-run-simctl `BriefcaseCommandError`, for both probes. -/
theorem simctl_invocation_failure (os_name udid : String) :
    get_simulators os_name none =
      SimResult.invocationFailed "Unable to run xcrun simctl."
    ∧ get_device_state udid none =
      DeviceStateResult.invocationFailed "Unable to run xcrun simctl." :=
  ⟨rfl, rfl⟩

/- ============ The IndexError handler is dead code under the guard ============ -/

/-- A string passing the `startswith` test decomposes as the tested prefix
followed by a remainder. -/
theorem startswithL_append {cs ps : List Char} (h : startswithL cs ps = true) :
    ∃ rest, cs = ps ++ rest := by
  induction ps generalizing cs with
  | nil => exact ⟨cs, rfl⟩
  | cons p ps ih =>
    cases cs with
    | nil => cases h
    | cons c cs =>
      rw [startswithL, Bool.and_eq_true, beq_iff_eq] at h
      obtain ⟨rest, hrest⟩ := ih h.2
      exact ⟨rest, by rw [h.1, hrest]; rfl⟩

/-- The head piece of a split is the run of characters before the first
separator. -/
theorem splitChar_head (sep : Char) (cs : List Char) :
    ∃ rest, splitChar sep cs = cs.takeWhile (fun c => !(c == sep)) :: rest := by
  induction cs with
  | nil => exact ⟨[], rfl⟩
  | cons c cs ih =>
    by_cases hc : c = sep
    · subst hc
      refine ⟨splitChar c cs, ?_⟩
      simp [splitChar, List.takeWhile_cons]
    · obtain ⟨rest, hrest⟩ := ih
      refine ⟨rest, ?_⟩
      simp [splitChar, if_neg hc, hrest, List.takeWhile_cons, hc]

/-- Splitting at a separator that occurs in the list yields at least two
pieces. -/
theorem splitChar_length_two (sep : Char) (cs : List Char) (h : sep ∈ cs) :
    2 ≤ (splitChar sep cs).length := by
  induction cs with
  | nil => cases h
  | cons c cs ih =>
    by_cases hc : c = sep
    · subst hc
      obtain ⟨r1, hsp⟩ := splitChar_head c cs
      simp [splitChar, hsp]
    · have hmem : sep ∈ cs := by
        rcases List.mem_cons.mp h with h' | h'
        · exact absurd h'.symm hc
        · exact h'
      obtain ⟨r1, hsp⟩ := splitChar_head sep cs
      have hlen := ih hmem
      rw [hsp] at hlen
      simp only [splitChar, if_neg hc, hsp]
      simpa using hlen

/-- Characters satisfying the predicate pass through `takeWhile` from an
initial segment wholly satisfying it. -/
theorem takeWhile_append_all {p : Char → Bool} (l1 l2 : List Char)
    (h : ∀ c ∈ l1, p c = true) :
    (l1 ++ l2).takeWhile p = l1 ++ l2.takeWhile p := by
  induction l1 with
  | nil => rfl
  | cons c l1 ih =>
    rw [List.cons_append, List.takeWhile_cons,
      if_pos (h c (List.mem_cons_self _ _)),
      ih (fun x hx => h x (List.mem_cons_of_mem _ hx))]
    rfl

/-- Under the 'Xcode ' prefix guard of `ensure_xcode_is_installed`, the
first line of the output always has a second space-separated token, so the
`IndexError` the source catches cannot occur there: the only reachable
parse failure is the uncaught `ValueError` exhibited for claim C1. -/
theorem versionToken_isSome_of_xcode (output : String)
    (hx : startswith output "Xcode " = true) :
    (versionToken output).isSome = true := by
  obtain ⟨r1, hsp⟩ := splitChar_head '\n' output.toList
  have hvt : versionToken output =
      ((splitChar ' '
        (output.toList.takeWhile (fun c => !(c == '\n')))).map String.mk).get? 1 := by
    unfold versionToken pySplit
    rw [hsp]
    rfl
  obtain ⟨rest, hrest⟩ := startswithL_append hx
  have hTmem : ' ' ∈ output.toList.takeWhile (fun c => !(c == '\n')) := by
    rw [show output.toList = ('X' :: 'c' :: 'o' :: 'd' :: 'e' :: ' ' :: []) ++ rest
        from hrest]
    rw [takeWhile_append_all _ _ (by decide)]
    exact List.mem_append_left _ (by decide)
  have hlen := splitChar_length_two ' ' _ hTmem
  obtain ⟨a, b, rs, hab⟩ : ∃ a b rs,
      splitChar ' ' (output.toList.takeWhile (fun c => !(c == '\n'))) = a :: b :: rs := by
    cases h2 : splitChar ' ' (output.toList.takeWhile (fun c => !(c == '\n'))) with
    | nil => rw [h2] at hlen; simp at hlen
    | cons a t2 =>
      cases t2 with
      | nil => rw [h2] at hlen; simp at hlen
      | cons b rs => exact ⟨a, b, rs, rfl⟩
  rw [hvt, hab]
  rfl
